import Mathlib

/-!
Shallow embedding of the message-dispatch and job-scheduling core of the
`hedeqiang/skeleton` Go repository, with theorems settling the stated claims.

The messaging half embeds `internal/messaging/message_processor.go`
(`ProcessorRegistry`, `MessageEnvelope`, `ProcessIncomingMessage`) together
with a model of Go's `encoding/json` unmarshalling of the envelope, and the
RabbitMQ consumer loop (`Consumer.Consume`).

The scheduling half embeds the `scheduler` package (`JobRegistry`,
`SchedulerService`, `InitializeJobs`, `addJob`, `createJobDefinition`,
`Start`, `Stop`) together with a model of Go's `time.ParseDuration` and the
`time.Parse("15:04", _)` clock parse used for daily jobs.

Go errors are modelled as explicit values; message texts abbreviate the Go
texts, keeping the structure (wrapping via `%w`) that the claims mention.
-/

namespace Skeleton

/-! ## JSON values

A JSON document as produced by Go's scanner.  A number literal records
whether it was a plain integer literal (no fraction, no exponent): Go's
decoder converts a number into an `int64` field with `strconv.ParseInt` on
the literal text, which succeeds exactly for plain integer literals in
range. -/

inductive Json where
  | null
  | bool (b : Bool)
  | num (v : Int) (exact : Bool)
  | str (s : String)
  | arr (elems : List Json)
  | obj (members : List (String × Json))
deriving Repr

/-! ## JSON text parsing (Go `encoding/json` syntax checker)

A recursive-descent parse of the JSON grammar over the character list,
fuelled by the input length (sufficient for every well-formed document).
Malformed input yields `none`, matching `json.Unmarshal`'s syntax errors. -/

def isJsonWs (c : Char) : Bool :=
  c == ' ' || c == '\t' || c == '\n' || c == '\r'

def skipWs : List Char → List Char
  | [] => []
  | c :: cs => if isJsonWs c then skipWs cs else c :: cs

def digitSpan : List Char → List Char × List Char
  | [] => ([], [])
  | c :: cs =>
    if c.isDigit then
      let p := digitSpan cs
      (c :: p.1, p.2)
    else ([], c :: cs)

def digitsToNat (ds : List Char) : Nat :=
  ds.foldl (fun acc c => acc * 10 + (c.toNat - 48)) 0

def expDigits (r : List Char) : Option (List Char) :=
  let p := digitSpan r
  if p.1.isEmpty then none else some p.2

def parseExpPart : List Char → Option (List Char)
  | '+' :: r => expDigits r
  | '-' :: r => expDigits r
  | r => expDigits r

def parseNumTail (iv : Int) (exact : Bool) (r : List Char) :
    Option (Json × List Char) :=
  match r with
  | 'e' :: r2 => (parseExpPart r2).map (fun rest => (Json.num iv false, rest))
  | 'E' :: r2 => (parseExpPart r2).map (fun rest => (Json.num iv false, rest))
  | _ => some (Json.num iv exact, r)

def parseNumFrac (iv : Int) (r1 : List Char) : Option (Json × List Char) :=
  match r1 with
  | '.' :: r2 =>
    let p := digitSpan r2
    if p.1.isEmpty then none else parseNumTail iv false p.2
  | _ => parseNumTail iv true r1

def parseNum (cs : List Char) : Option (Json × List Char) :=
  let sign := cs.head? == some '-'
  let cs1 := if sign then cs.tail else cs
  let p := digitSpan cs1
  if p.1.isEmpty then none
  else if 1 < p.1.length && p.1.head? == some '0' then none
  else
    let n : Int := (digitsToNat p.1 : Int)
    parseNumFrac (if sign then -n else n) p.2

def hexVal (c : Char) : Option Nat :=
  if '0' ≤ c ∧ c ≤ '9' then some (c.toNat - 48)
  else if 'a' ≤ c ∧ c ≤ 'f' then some (c.toNat - 87)
  else if 'A' ≤ c ∧ c ≤ 'F' then some (c.toNat - 55)
  else none

def simpleEscape (e : Char) : Option Char :=
  if e == '"' then some '"'
  else if e == '\\' then some '\\'
  else if e == '/' then some '/'
  else if e == 'b' then some (Char.ofNat 8)
  else if e == 'f' then some (Char.ofNat 12)
  else if e == 'n' then some '\n'
  else if e == 'r' then some '\r'
  else if e == 't' then some '\t'
  else none

def parseStrBody : List Char → Option (List Char × List Char)
  | [] => none
  | '"' :: cs => some ([], cs)
  | '\\' :: 'u' :: h1 :: h2 :: h3 :: h4 :: cs =>
    match hexVal h1, hexVal h2, hexVal h3, hexVal h4 with
    | some a, some b, some c, some d =>
      (parseStrBody cs).map
        (fun p => (Char.ofNat (((a * 16 + b) * 16 + c) * 16 + d) :: p.1, p.2))
    | _, _, _, _ => none
  | '\\' :: e :: cs =>
    match simpleEscape e with
    | some c => (parseStrBody cs).map (fun p => (c :: p.1, p.2))
    | none => none
  | c :: cs =>
    if c.toNat < 32 then none
    else (parseStrBody cs).map (fun p => (c :: p.1, p.2))

mutual

def parseVal : Nat → List Char → Option (Json × List Char)
  | 0, _ => none
  | Nat.succ fuel, cs =>
    match skipWs cs with
    | 'n' :: 'u' :: 'l' :: 'l' :: rest => some (Json.null, rest)
    | 't' :: 'r' :: 'u' :: 'e' :: rest => some (Json.bool true, rest)
    | 'f' :: 'a' :: 'l' :: 's' :: 'e' :: rest => some (Json.bool false, rest)
    | '"' :: rest => (parseStrBody rest).map (fun p => (Json.str (String.mk p.1), p.2))
    | '[' :: rest =>
      match skipWs rest with
      | ']' :: r2 => some (Json.arr [], r2)
      | r2 => (parseElems fuel r2).map (fun p => (Json.arr p.1, p.2))
    | '\x7b' :: rest =>
      match skipWs rest with
      | '\x7d' :: r2 => some (Json.obj [], r2)
      | r2 => (parseMembers fuel r2).map (fun p => (Json.obj p.1, p.2))
    | cs2 => parseNum cs2

def parseElems : Nat → List Char → Option (List Json × List Char)
  | 0, _ => none
  | Nat.succ fuel, cs =>
    match parseVal fuel cs with
    | none => none
    | some (v, rest) =>
      match skipWs rest with
      | ',' :: r2 => (parseElems fuel (skipWs r2)).map (fun p => (v :: p.1, p.2))
      | ']' :: r2 => some ([v], r2)
      | _ => none

def parseMembers : Nat → List Char → Option (List (String × Json) × List Char)
  | 0, _ => none
  | Nat.succ fuel, cs =>
    match skipWs cs with
    | '"' :: rest =>
      match parseStrBody rest with
      | none => none
      | some (kchars, r1) =>
        match skipWs r1 with
        | ':' :: r2 =>
          match parseVal fuel r2 with
          | none => none
          | some (v, r3) =>
            match skipWs r3 with
            | ',' :: r4 =>
              (parseMembers fuel r4).map
                (fun p => ((String.mk kchars, v) :: p.1, p.2))
            | '\x7d' :: r4 => some ([(String.mk kchars, v)], r4)
            | _ => none
        | _ => none
    | _ => none

end

/-- `json.Unmarshal`'s syntax phase: parse the whole input as one JSON
value, with nothing but whitespace after it. -/
def parseJson (s : String) : Option Json :=
  match parseVal (s.length + 2) s.data with
  | none => none
  | some (v, rest) => if (skipWs rest).isEmpty then some v else none

/-! ## MessageEnvelope (`internal/messaging/message_processor.go`)

Go struct fields keep their names; zero values are the Go zero values.
`Payload` is a `json.RawMessage` (the raw JSON value, decoded lazily);
absent is modelled as `none`, a present value `v` (including JSON `null`)
as `some v`. -/

structure MessageEnvelope where
  MessageID : String := ""
  MessageType : String := ""
  Payload : Option Json := none
  Timestamp : Int := 0
  Source : String := ""
  Version : String := ""
deriving Repr

inductive EnvField where
  | mid | mtype | pay | ts | src | ver | unknown
deriving Repr, DecidableEq

def lowerChar (c : Char) : Char :=
  if 'A' ≤ c ∧ c ≤ 'Z' then Char.ofNat (c.toNat + 32) else c

def lowerKey (k : String) : String :=
  String.mk (k.data.map lowerChar)

/-- Which envelope struct field a JSON object key binds to.  Go's decoder
matches keys against the `json` tags case-insensitively (the tags here are
all lower-case ASCII, and no two tags collide case-insensitively). -/
def envKey (k : String) : EnvField :=
  let l := lowerKey k
  if l == "message_id" then .mid
  else if l == "message_type" then .mtype
  else if l == "payload" then .pay
  else if l == "timestamp" then .ts
  else if l == "source" then .src
  else if l == "version" then .ver
  else .unknown

def int64Lo : Int := -(2 ^ 63)

def int64Hi : Int := 2 ^ 63 - 1

/-- Whether Go's decoder accepts JSON value `v` for the field keyed `k`:
string fields want a JSON string, `Timestamp` wants a plain integer
literal in `int64` range, `Payload` (a `json.RawMessage`) takes anything,
unknown keys are ignored, and JSON `null` is a no-op for every field. -/
def fieldOk (k : String) (v : Json) : Bool :=
  match envKey k, v with
  | .unknown, _ => true
  | .pay, _ => true
  | _, .null => true
  | .mid, .str _ => true
  | .mtype, .str _ => true
  | .src, .str _ => true
  | .ver, .str _ => true
  | .ts, .num n exact => exact && decide (int64Lo ≤ n) && decide (n ≤ int64Hi)
  | _, _ => false

/-- The field update Go's decoder performs for an accepted key/value
binding (JSON `null` leaves the field untouched; unknown keys are
ignored). -/
def applyField (env : MessageEnvelope) (k : String) (v : Json) : MessageEnvelope :=
  match envKey k, v with
  | .pay, j => { env with Payload := some j }
  | .mid, .str s => { env with MessageID := s }
  | .mtype, .str s => { env with MessageType := s }
  | .src, .str s => { env with Source := s }
  | .ts, .num n _ => { env with Timestamp := n }
  | .ver, .str s => { env with Version := s }
  | _, _ => env

def setField (env : MessageEnvelope) (k : String) (v : Json) :
    Except String MessageEnvelope :=
  if fieldOk k v then .ok (applyField env k v)
  else .error ("cannot unmarshal value into struct field " ++ k)

def decodeMembers (env : MessageEnvelope) :
    List (String × Json) → Except String MessageEnvelope
  | [] => .ok env
  | (k, v) :: rest =>
    match setField env k v with
    | .ok env2 => decodeMembers env2 rest
    | .error e => .error e

/-- `json.Unmarshal` of a parsed JSON value into a `MessageEnvelope`:
an object decodes field by field in order (later duplicates overwrite),
top-level `null` is a no-op leaving the zero struct, and any other
top-level value is a type error. -/
def decodeEnvelope : Json → Except String MessageEnvelope
  | .obj kvs => decodeMembers {} kvs
  | .null => .ok {}
  | _ => .error "cannot unmarshal value into MessageEnvelope"

/-- `json.Unmarshal(body, &envelope)`: syntax check then struct decode. -/
def unmarshalEnvelope (body : String) : Except String MessageEnvelope :=
  match parseJson body with
  | none => .error "invalid JSON"
  | some j => decodeEnvelope j

/-! ## Go errors and the processor registry -/

/-- Go `error` values as they appear in this code: an error produced by
`encoding/json`, a `fmt.Errorf("...: %w", err)` wrapper, or an arbitrary
error constructed by business code (distinguished by a tag). -/
inductive GoError where
  | jsonError (msg : String)
  | wrap (text : String) (inner : GoError)
  | custom (tag : Nat)
deriving Repr, DecidableEq

/-- A `MessageProcessor`: `GetSupportedMessageType` and `ProcessMessage`.
The Go method also receives a `context.Context` and the `*app.App`; neither
influences the dispatch logic under scrutiny, so the model elides them.
`none` is Go's `nil` error. -/
structure MessageProcessor where
  GetSupportedMessageType : String
  ProcessMessage : MessageEnvelope → Option GoError

/-- The registry's `processors` map (`map[string]MessageProcessor`). -/
def ProcessorMap := String → Option MessageProcessor

/-- `NewProcessorRegistry`: the empty map. -/
def newProcessorRegistry : ProcessorMap := fun _ => none

/-- `RegisterProcessor`: `r.processors[p.GetSupportedMessageType()] = p`.
The Go method returns nothing, so no error can be raised on overwrite. -/
def RegisterProcessor (r : ProcessorMap) (p : MessageProcessor) : ProcessorMap :=
  fun t => if t = p.GetSupportedMessageType then some p else r t

/-- `ProcessIncomingMessage(ctx, body, app)`.  Returns the Go error result
together with the trace of processor invocations (which processor, on which
envelope) the call performs; the Go method never mutates `r.processors`
(its only access is a map read), so the registry is passed read-only. -/
def ProcessIncomingMessage (r : ProcessorMap) (body : String) :
    Option GoError × List (MessageProcessor × MessageEnvelope) :=
  match unmarshalEnvelope body with
  | .error e =>
    (some (.wrap "failed to unmarshal message envelope" (.jsonError e)), [])
  | .ok env =>
    match r env.MessageType with
    | none => (none, [])
    | some p => (p.ProcessMessage env, [(p, env)])

/-! ## Concrete messaging examples -/

def helloEnvelope : MessageEnvelope := { MessageType := "hello", Timestamp := 5 }

def helloBody : String := "\x7b\"message_type\":\"hello\",\"timestamp\":5\x7d"

def unknownBody : String := "\x7b\"message_type\":\"mystery\",\"timestamp\":5\x7d"

def helloProc : MessageProcessor := ⟨"hello", fun _ => none⟩

def helloProcFailing : MessageProcessor := ⟨"hello", fun _ => some (.custom 7)⟩

def helloMap : ProcessorMap := RegisterProcessor newProcessorRegistry helloProcFailing

/-! ## Messaging theorems -/

/-- Claim C1: for every registry state and every byte input decoding to an
envelope whose `message_type` is the supported type of a registered
processor, `ProcessIncomingMessage` invokes exactly that processor's
`ProcessMessage`, exactly once, on the decoded envelope (the invocation
trace is precisely `[(p, env)]`), and returns exactly the error value that
`ProcessMessage` returns, unchanged. -/
theorem processIncomingMessage_dispatches_registered
    (r : ProcessorMap) (body : String) (env : MessageEnvelope)
    (p : MessageProcessor)
    (hdec : unmarshalEnvelope body = .ok env)
    (hreg : r env.MessageType = some p) :
    ProcessIncomingMessage r body = (p.ProcessMessage env, [(p, env)]) := by
  simp only [ProcessIncomingMessage, hdec, hreg]

theorem processIncomingMessage_dispatches_registered_witness :
    unmarshalEnvelope helloBody = .ok helloEnvelope ∧
    helloMap helloEnvelope.MessageType = some helloProcFailing ∧
    ProcessIncomingMessage helloMap helloBody =
      (helloProcFailing.ProcessMessage helloEnvelope,
       [(helloProcFailing, helloEnvelope)]) :=
  ⟨rfl, rfl,
   processIncomingMessage_dispatches_registered helloMap helloBody
     helloEnvelope helloProcFailing rfl rfl⟩

/-- Claim C2: for every byte input decoding successfully to an envelope
whose `message_type` has no registered processor, `ProcessIncomingMessage`
returns `nil` and invokes no processor (empty invocation trace).  The Go
method's only access to the registry is the map read, so the registry state
is unchanged by construction of this embedding. -/
theorem processIncomingMessage_unregistered_type
    (r : ProcessorMap) (body : String) (env : MessageEnvelope)
    (hdec : unmarshalEnvelope body = .ok env)
    (hreg : r env.MessageType = none) :
    ProcessIncomingMessage r body = (none, []) := by
  simp only [ProcessIncomingMessage, hdec, hreg]

theorem processIncomingMessage_unregistered_type_witness :
    unmarshalEnvelope unknownBody =
      .ok { MessageType := "mystery", Timestamp := 5 } ∧
    helloMap "mystery" = none ∧
    ProcessIncomingMessage helloMap unknownBody = (none, []) :=
  ⟨rfl, rfl,
   processIncomingMessage_unregistered_type helloMap unknownBody
     { MessageType := "mystery", Timestamp := 5 } rfl rfl⟩

/-- Claim C3: for every byte input on which JSON unmarshalling of the
envelope fails, `ProcessIncomingMessage` returns a non-nil error wrapping
the decode failure (`fmt.Errorf("failed to unmarshal message envelope: %w",
err)`), and invokes no processor. -/
theorem processIncomingMessage_decode_failure
    (r : ProcessorMap) (body : String) (e : String)
    (hdec : unmarshalEnvelope body = .error e) :
    ProcessIncomingMessage r body =
      (some (.wrap "failed to unmarshal message envelope" (.jsonError e)), []) ∧
    (ProcessIncomingMessage r body).1 ≠ none := by
  have h1 : ProcessIncomingMessage r body =
      (some (.wrap "failed to unmarshal message envelope" (.jsonError e)), []) := by
    simp only [ProcessIncomingMessage, hdec]
  refine ⟨h1, ?_⟩
  rw [h1]
  simp

theorem processIncomingMessage_decode_failure_witness :
    unmarshalEnvelope "not json" = .error "invalid JSON" ∧
    ProcessIncomingMessage helloMap "not json" =
      (some (.wrap "failed to unmarshal message envelope"
         (.jsonError "invalid JSON")), []) ∧
    (ProcessIncomingMessage helloMap "not json").1 ≠ none :=
  ⟨rfl,
   (processIncomingMessage_decode_failure helloMap "not json" "invalid JSON" rfl).1,
   (processIncomingMessage_decode_failure helloMap "not json" "invalid JSON" rfl).2⟩

/-- Claim C9: registering `p1` then `p2` for the same supported type `T`
leaves only `p2` active for `T`: the map now binds `T` to `p2`, a dispatch
of a type-`T` envelope invokes `p2` (and, when `p1 ≠ p2`, never `p1`), and
the overwriting registration raises no error (`RegisterProcessor` returns
no error value at all in the source). -/
theorem registerProcessor_last_wins
    (r : ProcessorMap) (p1 p2 : MessageProcessor)
    (body : String) (env : MessageEnvelope)
    (_hT : p1.GetSupportedMessageType = p2.GetSupportedMessageType)
    (hdec : unmarshalEnvelope body = .ok env)
    (htype : env.MessageType = p2.GetSupportedMessageType) :
    RegisterProcessor (RegisterProcessor r p1) p2 p2.GetSupportedMessageType
      = some p2 ∧
    ProcessIncomingMessage (RegisterProcessor (RegisterProcessor r p1) p2) body
      = (p2.ProcessMessage env, [(p2, env)]) ∧
    (p1 ≠ p2 →
      ∀ q ∈ (ProcessIncomingMessage
          (RegisterProcessor (RegisterProcessor r p1) p2) body).2,
        q.1 ≠ p1) := by
  have hlook :
      RegisterProcessor (RegisterProcessor r p1) p2 p2.GetSupportedMessageType
        = some p2 := by
    unfold RegisterProcessor
    simp
  have hdisp :
      ProcessIncomingMessage (RegisterProcessor (RegisterProcessor r p1) p2) body
        = (p2.ProcessMessage env, [(p2, env)]) := by
    simp only [ProcessIncomingMessage, hdec, htype, hlook]
  refine ⟨hlook, hdisp, ?_⟩
  intro hne q hq
  rw [hdisp] at hq
  simp only [List.mem_singleton] at hq
  subst hq
  exact fun h => hne h.symm

theorem registerProcessor_last_wins_witness :
    helloProc.GetSupportedMessageType = helloProcFailing.GetSupportedMessageType ∧
    unmarshalEnvelope helloBody = .ok helloEnvelope ∧
    helloEnvelope.MessageType = helloProcFailing.GetSupportedMessageType ∧
    ProcessIncomingMessage
      (RegisterProcessor (RegisterProcessor newProcessorRegistry helloProc)
        helloProcFailing) helloBody
      = (helloProcFailing.ProcessMessage helloEnvelope,
         [(helloProcFailing, helloEnvelope)]) :=
  ⟨rfl, rfl, rfl,
   (registerProcessor_last_wins newProcessorRegistry helloProc helloProcFailing
     helloBody helloEnvelope rfl rfl rfl).2.1⟩

/-! ## Envelope decode leniency (claim C10) -/

def typedBadBody : String := "\x7b\"message_id\":5\x7d"

/-- Claim C10 counterexample: `{"message_id":5}` is a syntactically valid
JSON object, yet envelope decoding fails with a type error, refuting
"for every byte input that is syntactically valid JSON for an object,
decoding succeeds" and "only syntactically invalid JSON produces the
decode-failure error". -/
theorem envelope_decode_not_syntax_only :
    parseJson typedBadBody = some (Json.obj [("message_id", Json.num 5 true)]) ∧
    unmarshalEnvelope typedBadBody =
      .error "cannot unmarshal value into struct field message_id" :=
  ⟨rfl, rfl⟩

theorem decodeMembers_isOk (kvs : List (String × Json)) (env : MessageEnvelope)
    (hwt : ∀ kv ∈ kvs, fieldOk kv.1 kv.2 = true) :
    ∃ env2, decodeMembers env kvs = .ok env2 := by
  induction kvs generalizing env with
  | nil => exact ⟨env, rfl⟩
  | cons kv rest ih =>
    have hk : fieldOk kv.1 kv.2 = true := hwt kv (List.mem_cons_self kv rest)
    have hset : setField env kv.1 kv.2 = .ok (applyField env kv.1 kv.2) := by
      unfold setField
      rw [hk]
      rfl
    obtain ⟨env2, h2⟩ :=
      ih (applyField env kv.1 kv.2) (fun x hx => hwt x (List.mem_cons_of_mem kv hx))
    exact ⟨env2, by
      show decodeMembers env (kv :: rest) = .ok env2
      unfold decodeMembers
      rw [hset]
      exact h2⟩

/-- Claim C10, amended: envelope decoding is lenient about missing fields
but not about field types.  Every syntactically valid JSON object all of
whose members are accepted by the decoder for their key (string fields
bound to strings, `timestamp` to an in-range integer literal, any value for
`payload`, `null` or unknown keys ignored) decodes successfully; in
particular the empty object decodes to the all-zero envelope, and
`ProcessIncomingMessage` treats its empty `message_type` as an unregistered
type, returning no error.  Decode failure arises from syntactically invalid
JSON and also from type-mismatched fields. -/
theorem envelope_decode_lenient
    (kvs : List (String × Json)) (r : ProcessorMap)
    (hwt : ∀ kv ∈ kvs, fieldOk kv.1 kv.2 = true)
    (hr : r "" = none) :
    (∃ env, decodeEnvelope (Json.obj kvs) = .ok env) ∧
    unmarshalEnvelope "\x7b\x7d" = .ok {} ∧
    ProcessIncomingMessage r "\x7b\x7d" = (none, []) := by
  have hdec : unmarshalEnvelope "\x7b\x7d" = .ok {} := rfl
  have hmt : ({} : MessageEnvelope).MessageType = "" := rfl
  refine ⟨decodeMembers_isOk kvs {} hwt, hdec, ?_⟩
  simp only [ProcessIncomingMessage, hdec, hmt, hr]

theorem envelope_decode_lenient_witness :
    (∀ kv ∈ [("message_type", Json.str "hello"), ("extra", Json.bool true)],
      fieldOk kv.1 kv.2 = true) ∧
    helloMap "" = none ∧
    ((∃ env, decodeEnvelope
        (Json.obj [("message_type", Json.str "hello"), ("extra", Json.bool true)])
        = .ok env) ∧
     unmarshalEnvelope "\x7b\x7d" = .ok {} ∧
     ProcessIncomingMessage helloMap "\x7b\x7d" = (none, [])) :=
  ⟨by decide, rfl,
   envelope_decode_lenient
     [("message_type", Json.str "hello"), ("extra", Json.bool true)]
     helloMap (by decide) rfl⟩

/-! ## Consumer bridge (`Consumer.Consume`, RabbitMQ client)

The delivery loop body: for each delivery `d`, call the handler on
`d.Body`; on a non-nil error `d.Nack(false, true)` (reject, requeue), on
nil `d.Ack(false)`. -/

inductive DeliveryAction where
  | ack (multiple : Bool)
  | nack (multiple requeue : Bool)
deriving Repr, DecidableEq

/-- The action `Consumer.Consume`'s loop body issues for one delivery. -/
def consumeStep (handler : String → Option GoError) (body : String) :
    DeliveryAction :=
  match handler body with
  | some _ => .nack false true
  | none => .ack false

/-- The loop `for d := range msgs`, over a finite prefix of the delivery
stream: one action per delivery, in order. -/
def consumeLoop (handler : String → Option GoError) (deliveries : List String) :
    List DeliveryAction :=
  deliveries.map (consumeStep handler)

/-- Claim C4: for every delivery processed by the consumer loop, exactly
one of acknowledge or reject is issued (the action list is in bijection
with the delivery list): a delivery on which the handler returns nil is
acknowledged (`Ack(false)`), and one on which it returns a non-nil error
is rejected with requeue enabled (`Nack(false, true)`). -/
theorem consumeLoop_ack_or_requeue
    (handler : String → Option GoError) (deliveries : List String) :
    (consumeLoop handler deliveries).length = deliveries.length ∧
    ∀ i : Nat, ∀ hi : i < deliveries.length,
      (handler (deliveries.get ⟨i, hi⟩) = none →
        (consumeLoop handler deliveries).get
          ⟨i, by simpa [consumeLoop] using hi⟩ = .ack false) ∧
      (handler (deliveries.get ⟨i, hi⟩) ≠ none →
        (consumeLoop handler deliveries).get
          ⟨i, by simpa [consumeLoop] using hi⟩ = .nack false true) := by
  constructor
  · simp [consumeLoop]
  · intro i hi
    constructor
    · intro hnil
      simp only [consumeLoop, List.get_eq_getElem, List.getElem_map]
      simp only [List.get_eq_getElem] at hnil
      simp [consumeStep, hnil]
    · intro herr
      simp only [consumeLoop, List.get_eq_getElem, List.getElem_map]
      simp only [List.get_eq_getElem] at herr
      obtain ⟨e, he⟩ := Option.ne_none_iff_exists'.mp herr
      simp [consumeStep, he]

def demoHandler : String → Option GoError :=
  fun b => if b = "bad" then some (.custom 3) else none

theorem consumeLoop_ack_or_requeue_witness :
    0 < (["good", "bad"] : List String).length ∧
    1 < (["good", "bad"] : List String).length ∧
    consumeLoop demoHandler ["good", "bad"] = [.ack false, .nack false true] ∧
    ((consumeLoop demoHandler ["good", "bad"]).length = 2 ∧
      (consumeLoop demoHandler ["good", "bad"]).get ⟨0, by decide⟩ = .ack false ∧
      (consumeLoop demoHandler ["good", "bad"]).get ⟨1, by decide⟩ = .nack false true) :=
  ⟨by decide, by decide, by decide,
   by
    obtain ⟨hlen, hall⟩ := consumeLoop_ack_or_requeue demoHandler ["good", "bad"]
    refine ⟨hlen, ?_, ?_⟩
    · exact ((hall 0 (by decide)).1 (by decide))
    · exact ((hall 1 (by decide)).2 (by decide))⟩

/-! ## `time.ParseDuration` (Go standard library)

A duration is `[-+]?([0-9]*(\.[0-9]*)?[a-z]+)+` in (signed) nanoseconds;
`none` is Go's parse error (bad syntax, missing or unknown unit, or
overflow of the unsigned 64-bit accumulator). -/

def durCutoff : Nat := 2 ^ 63

/-- Go's `leadingInt`: consume leading digits into an accumulator,
erroring past `1<<63`. -/
def leadingIntAux (x : Nat) : List Char → Option (Nat × List Char)
  | [] => some (x, [])
  | c :: cs =>
    if c.isDigit then
      if x > durCutoff / 10 then none
      else
        let y := x * 10 + (c.toNat - 48)
        if y > durCutoff then none
        else leadingIntAux y cs
    else some (x, c :: cs)

/-- Go's `leadingFraction`: consume the digits after the decimal point,
silently dropping digits once the accumulator would pass `1<<63 - 1`;
returns the accumulated numerator, the power-of-ten scale, and the rest. -/
def leadingFractionAux (x scale : Nat) (overflow : Bool) :
    List Char → Nat × Nat × List Char
  | [] => (x, scale, [])
  | c :: cs =>
    if c.isDigit then
      if overflow then leadingFractionAux x scale true cs
      else if x > (durCutoff - 1) / 10 then leadingFractionAux x scale true cs
      else
        let y := x * 10 + (c.toNat - 48)
        if y > durCutoff then leadingFractionAux x scale true cs
        else leadingFractionAux y (scale * 10) false cs
    else (x, scale, c :: cs)

/-- The unit name: the run of characters that are neither digits nor a
decimal point. -/
def unitSpan : List Char → List Char × List Char
  | [] => ([], [])
  | c :: cs =>
    if c = '.' ∨ c.isDigit then ([], c :: cs)
    else
      let p := unitSpan cs
      (c :: p.1, p.2)

def durUnit (u : String) : Option Nat :=
  if u = "ns" then some 1
  else if u = "us" then some 1000
  else if u = "µs" then some 1000
  else if u = "μs" then some 1000
  else if u = "ms" then some 1000000
  else if u = "s" then some 1000000000
  else if u = "m" then some 60000000000
  else if u = "h" then some 3600000000000
  else none

/-- One `[0-9]*(\.[0-9]*)?unit` group: its contribution in nanoseconds and
the remaining input.  Go computes the fractional part as
`uint64(float64(f) * (float64(unit) / scale))`; the model takes the exact
floor `f * unit / scale`, which agrees except for sub-nanosecond
double-rounding on extreme precisions. -/
def parseDurGroup (s : List Char) : Option (Nat × List Char) :=
  match s with
  | [] => none
  | c :: _ =>
    if ¬(c = '.' ∨ c.isDigit) then none
    else
      match leadingIntAux 0 s with
      | none => none
      | some (v, s1) =>
        let pre : Bool := s1.length != s.length
        let fr : Nat × Nat × List Char × Bool :=
          match s1 with
          | '.' :: r2 =>
            let p := leadingFractionAux 0 1 false r2
            (p.1, p.2.1, p.2.2, p.2.2.length != r2.length)
          | _ => (0, 1, s1, false)
        match fr with
        | (f, scale, s2, post) =>
          if !pre && !post then none
          else
            let u := unitSpan s2
            if u.1.isEmpty then none
            else
              match durUnit (String.mk u.1) with
              | none => none
              | some unit =>
                if v > durCutoff / unit then none
                else
                  let v2 := v * unit
                  let v3 := if f > 0 then v2 + f * unit / scale else v2
                  if f > 0 ∧ v3 > durCutoff then none
                  else some (v3, u.2)

/-- The group loop of `time.ParseDuration`, fuelled by the input length
(each group consumes at least one character). -/
def parseDurationLoop : Nat → List Char → Nat → Option Nat
  | _, [], d => some d
  | 0, _ :: _, _ => none
  | Nat.succ fuel, s, d =>
    match parseDurGroup s with
    | none => none
    | some (v, rest) =>
      let d2 := d + v
      if d2 > durCutoff then none
      else parseDurationLoop fuel rest d2

/-- `time.ParseDuration`: optional sign, the special case `"0"`, then one
or more value/unit groups; result in nanoseconds. -/
def ParseDuration (s : String) : Option Int :=
  let cs := s.data
  let neg := cs.head? == some '-'
  let cs1 :=
    if cs.head? == some '-' || cs.head? == some '+' then cs.tail else cs
  if cs1 = ['0'] then some 0
  else if cs1.isEmpty then none
  else
    match parseDurationLoop (cs1.length + 1) cs1 0 with
    | none => none
    | some d =>
      if neg then some (-(d : Int))
      else if d > durCutoff - 1 then none
      else some ((d : Int))

/-! ## `time.Parse("15:04", _)` — the daily-job clock literal -/

def digitVal (c : Char) : Option Nat :=
  if c.isDigit then some (c.toNat - 48) else none

/-- Go `time.Parse("15:04", s)`: a one- or two-digit hour `0..23`, a
literal colon, a zero-padded two-digit minute `0..59`, end of input. -/
def parseClockHHMM (s : String) : Option (Nat × Nat) :=
  match s.data with
  | [a, b, ':', c, d] =>
    match digitVal a, digitVal b, digitVal c, digitVal d with
    | some x, some y, some z, some w =>
      let hh := x * 10 + y
      let mm := z * 10 + w
      if hh ≤ 23 ∧ mm ≤ 59 then some (hh, mm) else none
    | _, _, _, _ => none
  | [a, ':', c, d] =>
    match digitVal a, digitVal c, digitVal d with
    | some x, some z, some w =>
      let mm := z * 10 + w
      if x ≤ 23 ∧ mm ≤ 59 then some (x, mm) else none
    | _, _, _ => none
  | _ => none

/-! ## Job scheduling (`scheduler` package)

`SchedulerJobConfig.Type` is a Go field name that is a Lean keyword; it is
rendered `Type'`. -/

structure SchedulerJobConfig where
  Name : String
  Type' : String
  Schedule : String
  Enabled : Bool
  Description : String
deriving Repr, DecidableEq

structure SchedulerConfig where
  Enabled : Bool
  Jobs : List SchedulerJobConfig
deriving Repr, DecidableEq

/-- The `gocron.JobDefinition` values `createJobDefinition` constructs:
`gocron.DurationJob(d)`, `gocron.CronJob(expr, withSeconds)`, or
`gocron.DailyJob(interval, atTime(hh, mm, ss))`. -/
inductive JobDefinition where
  | durationJob (d : Int)
  | cronJob (crontab : String) (withSeconds : Bool)
  | dailyJob (interval : Nat) (hh mm ss : Nat)
deriving Repr, DecidableEq

/-- An entry of `SchedulerService.jobs`, carrying the gocron name and tags
set by `addJob` (`WithName(name)`, `WithTags(name, type)`). -/
structure ScheduledJob where
  JobName : String
  Tags : List String
  Definition : JobDefinition
deriving Repr, DecidableEq

/-- The mutable scheduler state: the `SchedulerService.jobs` slice plus the
gocron scheduler's running flag. -/
structure SchedulerState where
  jobs : List ScheduledJob
  started : Bool
deriving Repr, DecidableEq

/-- `JobRegistry`: the configuration and the `registeredJobs` factory map.
Only a factory's presence matters to the dispatch and lifecycle claims (the
constructed job's `Execute` goes into the gocron task, which these claims
never run), so the factory value is an opaque token. -/
structure JobRegistry where
  config : SchedulerConfig
  registeredJobs : String → Option Unit

/-- `JobRegistry.createJobDefinition`.  The `duration` and `daily` arms
validate their schedule strings and fail on malformed input (Go
`fmt.Errorf` values, `ConfigError`s in the spec's taxonomy); the `cron`
arm constructs `gocron.CronJob(schedule, false)` directly and cannot
fail. -/
def createJobDefinition (jobConfig : SchedulerJobConfig) :
    Except String JobDefinition :=
  match jobConfig.Type' with
  | "duration" =>
    match ParseDuration jobConfig.Schedule with
    | none => .error "invalid duration format"
    | some d => .ok (.durationJob d)
  | "cron" => .ok (.cronJob jobConfig.Schedule false)
  | "daily" =>
    match parseClockHHMM jobConfig.Schedule with
    | none => .error "invalid daily time format (should be HH:MM)"
    | some (hh, mm) => .ok (.dailyJob 1 hh mm 0)
  | _ => .error ("unsupported job type: " ++ jobConfig.Type')

def countFieldsAux : List Char → Bool → Nat
  | [], _ => 0
  | c :: cs, inField =>
    if c = ' ' then countFieldsAux cs false
    else (if inField then 0 else 1) + countFieldsAux cs true

def cronFieldCount (s : String) : Nat :=
  countFieldsAux s.data false

/-- Modelled from the spec: `gocron.Scheduler.NewJob` (an external library,
not part of this repository) accepts the duration and daily definitions
built by `createJobDefinition` and validates a cron definition's
expression — the spec's trigger engine requires "a 5-or-6-field cron
expression", so the model checks the field count.  No theorem below
depends on the precise cron grammar. -/
def newJobOk : JobDefinition → Bool
  | .cronJob crontab _ =>
    cronFieldCount crontab == 5 || cronFieldCount crontab == 6
  | _ => true

/-- `JobRegistry.addJob`: factory lookup, `createJobDefinition`, then
`SchedulerService.AddJob` (gocron `NewJob` plus append to `s.jobs`).
State is threaded explicitly, mirroring the in-place mutation of the Go
scheduler: an error leaves whatever was already added in place. -/
def addJob (r : JobRegistry) (st : SchedulerState)
    (jobConfig : SchedulerJobConfig) : SchedulerState × Option String :=
  match r.registeredJobs jobConfig.Name with
  | none => (st, some ("job factory not found for: " ++ jobConfig.Name))
  | some _ =>
    match createJobDefinition jobConfig with
    | .error e => (st, some ("failed to create job definition: " ++ e))
    | .ok jd =>
      if newJobOk jd then
        ({ st with jobs :=
            st.jobs ++ [⟨jobConfig.Name, [jobConfig.Name, jobConfig.Type'], jd⟩] },
         none)
      else (st, some "failed to add job to scheduler: invalid definition")

/-- The loop body of `InitializeJobs` over the configured job specs:
disabled specs are skipped; the first failing `addJob` stops the loop with
the wrapping error `failed to add job <name>: <err>`. -/
def initJobsFrom (r : JobRegistry) :
    SchedulerState → List SchedulerJobConfig → SchedulerState × Option String
  | st, [] => (st, none)
  | st, jobConfig :: rest =>
    if jobConfig.Enabled then
      match addJob r st jobConfig with
      | (st2, none) => initJobsFrom r st2 rest
      | (st2, some e) =>
        (st2, some ("failed to add job " ++ jobConfig.Name ++ ": " ++ e))
    else initJobsFrom r st rest

/-- `JobRegistry.InitializeJobs`: a no-op returning no error when the
scheduler config is disabled, else the spec loop. -/
def InitializeJobs (r : JobRegistry) (st : SchedulerState) :
    SchedulerState × Option String :=
  if r.config.Enabled then initJobsFrom r st r.config.Jobs else (st, none)

/-- `JobRegistry.Start`: when the scheduler config is enabled, re-runs
`InitializeJobs` (unconditionally, on every call) and then starts the
underlying gocron scheduler. -/
def Start (r : JobRegistry) (st : SchedulerState) :
    SchedulerState × Option String :=
  if r.config.Enabled then
    match InitializeJobs r st with
    | (st2, some e) => (st2, some ("failed to initialize jobs: " ++ e))
    | (st2, none) => ({ st2 with started := true }, none)
  else (st, none)

/-- `JobRegistry.Stop` delegates to `SchedulerService.Stop`, i.e.
`gocron.Scheduler.Shutdown()`.  Modelled from the spec: gocron is an
external library, and §4.5 requires `stop()` on an already stopped
scheduler to be a no-op without error, so `Shutdown` clears the running
flag and never fails; the repository code touches nothing else (the
`s.jobs` slice is left as is). -/
def Stop (st : SchedulerState) : SchedulerState × Option String :=
  ({ st with started := false }, none)

/-! ## Scheduler helper lemmas

`addJob`'s error and appended entry depend only on the registry and the
spec (never on the threaded state), which the following helpers factor
out. -/

/-- The `ScheduledJob` a successful `addJob` appends for a spec. -/
def jobEntry (jobConfig : SchedulerJobConfig) : Option ScheduledJob :=
  match createJobDefinition jobConfig with
  | .ok jd =>
    if newJobOk jd then
      some ⟨jobConfig.Name, [jobConfig.Name, jobConfig.Type'], jd⟩
    else none
  | .error _ => none

/-- The error `addJob` produces for a spec (state-independent). -/
def addJobErr (r : JobRegistry) (jobConfig : SchedulerJobConfig) : Option String :=
  (addJob r ⟨[], false⟩ jobConfig).2

/-- The jobs a fully successful initialization pass appends. -/
def enabledEntries (jobs : List SchedulerJobConfig) : List ScheduledJob :=
  (jobs.filter fun c => c.Enabled).filterMap jobEntry

theorem addJob_success (r : JobRegistry) (st : SchedulerState)
    (cfg : SchedulerJobConfig) (h : addJobErr r cfg = none) :
    ∃ j, jobEntry cfg = some j ∧
      addJob r st cfg = ({ st with jobs := st.jobs ++ [j] }, none) := by
  unfold addJobErr addJob at h
  cases hr : r.registeredJobs cfg.Name with
  | none => simp [hr] at h
  | some u =>
    simp only [hr] at h
    cases hc : createJobDefinition cfg with
    | error e => simp [hc] at h
    | ok jd =>
      simp only [hc] at h
      by_cases hn : newJobOk jd = true
      · refine ⟨⟨cfg.Name, [cfg.Name, cfg.Type'], jd⟩, ?_, ?_⟩
        · simp [jobEntry, hc, hn]
        · simp [addJob, hr, hc, hn]
      · simp [hn] at h

theorem addJob_failure (r : JobRegistry) (st : SchedulerState)
    (cfg : SchedulerJobConfig) (e : String) (h : addJobErr r cfg = some e) :
    addJob r st cfg = (st, some e) := by
  unfold addJobErr addJob at h
  unfold addJob
  cases hr : r.registeredJobs cfg.Name with
  | none =>
    simp only [hr] at h ⊢
    simp only [Option.some.injEq] at h
    rw [h]
  | some u =>
    simp only [hr] at h ⊢
    cases hc : createJobDefinition cfg with
    | error e2 =>
      simp only [hc] at h ⊢
      simp only [Option.some.injEq] at h
      rw [h]
    | ok jd =>
      simp only [hc] at h ⊢
      by_cases hn : newJobOk jd = true
      · simp [hn] at h
      · simp only [Bool.not_eq_true] at hn
        simp only [hn, Bool.false_eq_true, if_false] at h ⊢
        simp only [Option.some.injEq] at h
        rw [h]

theorem initJobsFrom_success (r : JobRegistry) (jobs : List SchedulerJobConfig) :
    ∀ st : SchedulerState,
      (∀ c ∈ jobs, c.Enabled = true → addJobErr r c = none) →
      initJobsFrom r st jobs =
        ({ st with jobs := st.jobs ++ enabledEntries jobs }, none) := by
  induction jobs with
  | nil =>
    intro st _
    simp [initJobsFrom, enabledEntries]
  | cons c rest ih =>
    intro st h
    by_cases hc : c.Enabled = true
    · obtain ⟨j, hj, hadd⟩ := addJob_success r st c (h c (by simp) hc)
      simp only [initJobsFrom, hc, if_true, hadd]
      rw [ih _ (fun x hx hxe => h x (by simp [hx]) hxe)]
      simp [enabledEntries, hc, hj]
    · have hcf : c.Enabled = false := by simpa using hc
      simp only [initJobsFrom, hcf, Bool.false_eq_true, if_false]
      rw [ih st (fun x hx hxe => h x (by simp [hx]) hxe)]
      simp [enabledEntries, hcf]

theorem initJobsFrom_first_failure (r : JobRegistry)
    (pre : List SchedulerJobConfig) (c : SchedulerJobConfig)
    (rest : List SchedulerJobConfig) (e : String) :
    ∀ st : SchedulerState,
      (∀ x ∈ pre, x.Enabled = true → addJobErr r x = none) →
      c.Enabled = true → addJobErr r c = some e →
      initJobsFrom r st (pre ++ c :: rest) =
        ({ st with jobs := st.jobs ++ enabledEntries pre },
         some ("failed to add job " ++ c.Name ++ ": " ++ e)) := by
  induction pre with
  | nil =>
    intro st _ hc he
    have hadd := addJob_failure r st c e he
    simp only [List.nil_append, initJobsFrom, hc, if_true, hadd]
    simp [enabledEntries]
  | cons x xs ih =>
    intro st hpre hc he
    by_cases hx : x.Enabled = true
    · obtain ⟨j, hj, hadd⟩ := addJob_success r st x (hpre x (by simp) hx)
      simp only [List.cons_append, initJobsFrom, hx, if_true, hadd, List.append_eq]
      rw [ih _ (fun y hy hye => hpre y (by simp [hy]) hye) hc he]
      simp [enabledEntries, hx, hj]
    · have hxf : x.Enabled = false := by simpa using hx
      simp only [List.cons_append, initJobsFrom, hxf, Bool.false_eq_true, if_false,
        List.append_eq]
      rw [ih st (fun y hy hye => hpre y (by simp [hy]) hye) hc he]
      simp [enabledEntries, hxf]

/-! ## Scheduler claims -/

def exFactoryMap : String → Option Unit :=
  fun n => if n = "hello_job" then some () else none

def exGoodCfg : SchedulerJobConfig := ⟨"hello_job", "duration", "30s", true, "demo"⟩

def exMissingCfg : SchedulerJobConfig :=
  ⟨"mystery_job", "duration", "30s", true, "demo"⟩

def exRegistry : JobRegistry := ⟨⟨true, [exGoodCfg, exMissingCfg]⟩, exFactoryMap⟩

/-- Claim C5 counterexample: with the factory map holding only
`hello_job` and a configuration enabling `hello_job` then `mystery_job`,
`InitializeJobs` returns the error naming `mystery_job` — but the
previously processed `hello_job` remains added to the scheduler, so the
claimed atomic "no partial activation" (no job left added, including specs
processed before the offending one) is false. -/
theorem initializeJobs_partial_activation :
    InitializeJobs exRegistry ⟨[], false⟩ =
      (⟨[⟨"hello_job", ["hello_job", "duration"], .durationJob 30000000000⟩],
         false⟩,
       some "failed to add job mystery_job: job factory not found for: mystery_job") ∧
    (InitializeJobs exRegistry ⟨[], false⟩).1.jobs ≠ [] :=
  ⟨by decide, by decide⟩

/-- Claim C5, amended: for every enabled scheduler configuration whose
spec list is `pre ++ c :: rest` with every enabled spec of `pre`
succeeding, `c` enabled and `c`'s name absent from the factory map,
`InitializeJobs` returns an error naming `c` and stops (no spec of `rest`
is processed) — but the jobs added for `pre`'s enabled specs remain added
to the scheduler; there is no rollback. -/
theorem initializeJobs_missing_factory (r : JobRegistry) (st : SchedulerState)
    (pre rest : List SchedulerJobConfig) (c : SchedulerJobConfig)
    (hE : r.config.Enabled = true)
    (hjobs : r.config.Jobs = pre ++ c :: rest)
    (hpre : ∀ x ∈ pre, x.Enabled = true → addJobErr r x = none)
    (hc : c.Enabled = true)
    (hf : r.registeredJobs c.Name = none) :
    InitializeJobs r st =
      ({ st with jobs := st.jobs ++ enabledEntries pre },
       some ("failed to add job " ++ c.Name ++ ": " ++
         ("job factory not found for: " ++ c.Name))) := by
  have he : addJobErr r c = some ("job factory not found for: " ++ c.Name) := by
    simp [addJobErr, addJob, hf]
  unfold InitializeJobs
  simp only [hE, if_true, hjobs]
  exact initJobsFrom_first_failure r pre c rest _ st hpre hc he

theorem initializeJobs_missing_factory_witness :
    exRegistry.config.Enabled = true ∧
    exRegistry.config.Jobs = [exGoodCfg] ++ exMissingCfg :: [] ∧
    (∀ x ∈ [exGoodCfg], x.Enabled = true → addJobErr exRegistry x = none) ∧
    exMissingCfg.Enabled = true ∧
    exRegistry.registeredJobs exMissingCfg.Name = none ∧
    InitializeJobs exRegistry ⟨[], false⟩ =
      ({ SchedulerState.mk [] false with
          jobs := ([] : List ScheduledJob) ++ enabledEntries [exGoodCfg] },
       some ("failed to add job " ++ exMissingCfg.Name ++ ": " ++
         ("job factory not found for: " ++ exMissingCfg.Name))) :=
  ⟨rfl, rfl, by decide, rfl, rfl,
   initializeJobs_missing_factory exRegistry ⟨[], false⟩ [exGoodCfg] []
     exMissingCfg rfl rfl (by decide) rfl rfl⟩

def exRegistry2 : JobRegistry := ⟨⟨true, [exGoodCfg]⟩, exFactoryMap⟩

/-- Claim C6 counterexample: `Start` when already started is not a no-op.
`JobRegistry.Start` re-runs `InitializeJobs` on every call, so after a
second `Start` the scheduler holds two entries for `hello_job` where a
single `Start` leaves one — Start∘Start ≠ Start, and duplicate job entries
appear. -/
theorem start_start_duplicates_jobs :
    (Start exRegistry2 ⟨[], false⟩).1.jobs.length = 1 ∧
    (Start exRegistry2 (Start exRegistry2 ⟨[], false⟩).1).1.jobs.length = 2 :=
  ⟨by decide, by decide⟩

/-- Claim C6, amended: `Stop` when already stopped is a no-op returning no
error (Stop after Stop equals a single Stop; the gocron `Shutdown` side is
modelled from the spec), but `Start` when already started is not: every
successful `Start` appends the configuration's enabled jobs again, so two
Starts append them twice (duplicate entries) instead of equalling a single
Start. -/
theorem stop_idempotent_start_duplicates (r : JobRegistry) (st : SchedulerState)
    (hE : r.config.Enabled = true)
    (hok : ∀ c ∈ r.config.Jobs, c.Enabled = true → addJobErr r c = none) :
    Stop (Stop st).1 = Stop st ∧
    (Stop st).2 = none ∧
    (Start r st).1.jobs = st.jobs ++ enabledEntries r.config.Jobs ∧
    (Start r (Start r st).1).1.jobs =
      st.jobs ++ enabledEntries r.config.Jobs ++ enabledEntries r.config.Jobs := by
  have hinit : ∀ s : SchedulerState, InitializeJobs r s =
      ({ s with jobs := s.jobs ++ enabledEntries r.config.Jobs }, none) := by
    intro s
    unfold InitializeJobs
    simp only [hE, if_true]
    exact initJobsFrom_success r r.config.Jobs s hok
  have hstart : ∀ s : SchedulerState, Start r s =
      (⟨s.jobs ++ enabledEntries r.config.Jobs, true⟩, none) := by
    intro s
    unfold Start
    simp only [hE, if_true, hinit s]
  refine ⟨rfl, rfl, ?_, ?_⟩
  · rw [hstart st]
  · rw [hstart st, hstart ⟨st.jobs ++ enabledEntries r.config.Jobs, true⟩]

theorem stop_idempotent_start_duplicates_witness :
    exRegistry2.config.Enabled = true ∧
    (∀ c ∈ exRegistry2.config.Jobs, c.Enabled = true →
      addJobErr exRegistry2 c = none) ∧
    (Stop (Stop ⟨[], true⟩).1 = Stop ⟨[], true⟩ ∧
     (Stop (⟨[], true⟩ : SchedulerState)).2 = none ∧
     (Start exRegistry2 ⟨[], true⟩).1.jobs =
       ([] : List ScheduledJob) ++ enabledEntries exRegistry2.config.Jobs ∧
     (Start exRegistry2 (Start exRegistry2 ⟨[], true⟩).1).1.jobs =
       ([] : List ScheduledJob) ++ enabledEntries exRegistry2.config.Jobs ++
         enabledEntries exRegistry2.config.Jobs) :=
  ⟨rfl, by decide,
   stop_idempotent_start_duplicates exRegistry2 ⟨[], true⟩ rfl (by decide)⟩

/-- Claim C7 counterexample: `createJobDefinition` performs no validation
of cron expressions.  On a plainly malformed expression it returns the
cron job definition with no error, instead of the registration-time
`ConfigError` the claim requires of this function. -/
theorem createJobDefinition_cron_no_error :
    createJobDefinition ⟨"x", "cron", "definitely not a cron expression", true, ""⟩ =
      .ok (.cronJob "definitely not a cron expression" false) := rfl

/-- Claim C7, amended: for every job spec of kind cron,
`createJobDefinition` returns the cron job definition — the schedule
string passed through verbatim, `withSeconds = false` — with no error,
whatever the schedule string; malformed-expression failure is not raised
by this validation step (it surfaces later, from the scheduler library's
`NewJob` inside `addJob`). -/
theorem createJobDefinition_cron_never_errors (cfg : SchedulerJobConfig)
    (h : cfg.Type' = "cron") :
    createJobDefinition cfg = .ok (.cronJob cfg.Schedule false) := by
  unfold createJobDefinition
  rw [h]
  rfl

theorem createJobDefinition_cron_never_errors_witness :
    (SchedulerJobConfig.mk "x" "cron" "* * bogus" true "").Type' = "cron" ∧
    createJobDefinition ⟨"x", "cron", "* * bogus", true, ""⟩ =
      .ok (.cronJob "* * bogus" false) :=
  ⟨rfl,
   createJobDefinition_cron_never_errors ⟨"x", "cron", "* * bogus", true, ""⟩ rfl⟩

/-- Modelled from the spec: the interval trigger's next-fire computation
(gocron `DurationJob`, an external library): `next = from_time + duration`,
with times and durations in nanoseconds.  Other trigger kinds are not
needed by the claims below. -/
def computeNext (jd : JobDefinition) (fromTime : Int) : Option Int :=
  match jd with
  | .durationJob d => some (fromTime + d)
  | _ => none

/-- Claim C8: for every from-time `t` and every schedule string that
parses as a duration `d`, the interval job definition built by
`createJobDefinition` computes next-fire `t + d` (so in particular "30s"
gives `t + 30s` for every `t`); and for every schedule string that does
not parse as a duration, `createJobDefinition` returns a `ConfigError`. -/
theorem interval_trigger_next_and_error (sched : String) (t : Int) :
    (∀ d, ParseDuration sched = some d →
      createJobDefinition ⟨"interval", "duration", sched, true, ""⟩ =
        .ok (.durationJob d) ∧
      computeNext (.durationJob d) t = some (t + d)) ∧
    (ParseDuration sched = none →
      createJobDefinition ⟨"interval", "duration", sched, true, ""⟩ =
        .error "invalid duration format") := by
  have hcd : createJobDefinition ⟨"interval", "duration", sched, true, ""⟩ =
      (match ParseDuration sched with
       | none => Except.error "invalid duration format"
       | some d => Except.ok (JobDefinition.durationJob d)) := rfl
  constructor
  · intro d hd
    rw [hcd, hd]
    exact ⟨rfl, rfl⟩
  · intro hd
    rw [hcd, hd]

theorem interval_trigger_next_and_error_witness :
    ParseDuration "30s" = some 30000000000 ∧
    createJobDefinition ⟨"interval", "duration", "30s", true, ""⟩ =
      .ok (.durationJob 30000000000) ∧
    computeNext (.durationJob 30000000000) 1704100200000000000 =
      some (1704100200000000000 + 30000000000) :=
  ⟨by decide,
   ((interval_trigger_next_and_error "30s" 1704100200000000000).1
     30000000000 (by decide)).1,
   ((interval_trigger_next_and_error "30s" 1704100200000000000).1
     30000000000 (by decide)).2⟩

end Skeleton
